import Mathlib

/-!
Verification of finit's pidfile watcher plugin (src/plugins/pidfile.c),
plugin/hook dispatcher and TTY registry (src/unnamed/part_000) against the
natural-language specification.  C strings are modelled as `List Char` or
`String`, pointer arithmetic as list indices, and the process environment
(filesystems, inotify, dlopen, getty processes) as explicit parameters.
-/

namespace Finit

/-- Index of the first occurrence of character `c` in a character list,
mirroring C `strchr` (an index instead of a pointer, `none` for NULL). -/
def strchrIdx (c : Char) : List Char → Option Nat
  | [] => none
  | a :: as => if a = c then some 0 else (strchrIdx c as).map (· + 1)

/-- `leadsWith p s` : `p` is an initial segment of `s`. -/
def leadsWith : List Char → List Char → Bool
  | [], _ => true
  | _ :: _, [] => false
  | p :: ps, c :: cs => p == c && leadsWith ps cs

/-- Index of the first occurrence of the pattern `pat` inside a string,
mirroring C `strstr` (an index instead of a pointer, `none` for NULL). -/
def strstrIdx (pat : List Char) : List Char → Option Nat
  | [] => if leadsWith pat [] then some 0 else none
  | c :: cs => if leadsWith pat (c :: cs) then some 0 else (strstrIdx pat cs).map (· + 1)

/-- `trailsWith suf s` : `suf` is a final segment of `s`. -/
def trailsWith (suf s : List Char) : Bool := leadsWith suf.reverse s.reverse

/-- The inotify flag passed by the pidfile watcher to `iwatch_add`. -/
def IN_ONLYDIR : Nat := 0x01000000

/-- Outcome of `pidfile_add_path`: either the path is rejected (return -1,
no watch added), or it is handed to `iwatch_add` with the given flags
(iwatch.c is not among the sources; the constructor records the call). -/
inductive AddPathResult
  | rejected
  | watch (path : List Char) (flags : Nat)
  deriving DecidableEq

/-- The literal "run/" searched for by `pidfile_add_path`. -/
def runSlash : List Char := ['r', 'u', 'n', '/']

/-- Shallow embedding of `pidfile_add_path` (src/plugins/pidfile.c).
`ptr = strstr(path, "run/")` finds the first occurrence; `ptr += 4` skips it;
the first `strchr` finds a slash in the remainder; `ptr = slash++` leaves
`ptr` on that slash itself, so the second `strchr` starts at the slash. -/
def pidfile_add_path (path : List Char) : AddPathResult :=
  match strstrIdx runSlash path with
  | none => .watch path IN_ONLYDIR
  | some i =>
    match strchrIdx '/' (path.drop (i + 4)) with
    | none => .watch path IN_ONLYDIR
    | some j =>
      match strchrIdx '/' ((path.drop (i + 4)).drop j) with
      | none => .watch path IN_ONLYDIR
      | some _ => .rejected

/-- Number of '/'-separated levels of a path remainder: one more than its
slash count. -/
def levelCount (r : List Char) : Nat := r.count '/' + 1

/-- The remainder of `path` after its first "run/" component, when present. -/
def runRemainder (path : List Char) : Option (List Char) :=
  (strstrIdx runSlash path).map (fun i => path.drop (i + 4))

theorem strchrIdx_eq_none_iff (c : Char) (l : List Char) :
    strchrIdx c l = none ↔ c ∉ l := by
  induction l with
  | nil => simp [strchrIdx]
  | cons a as ih =>
    by_cases h : a = c
    · subst h; simp [strchrIdx]
    · have h' : c ≠ a := fun hc => h hc.symm
      simp [strchrIdx, h, h', Option.map_eq_none', ih]

theorem strchrIdx_drop_self (c : Char) (l : List Char) (j : Nat)
    (h : strchrIdx c l = some j) : ∃ t, l.drop j = c :: t := by
  induction l generalizing j with
  | nil => simp [strchrIdx] at h
  | cons a as ih =>
    by_cases hac : a = c
    · subst hac
      simp [strchrIdx] at h
      subst h
      exact ⟨as, rfl⟩
    · simp [strchrIdx, hac] at h
      obtain ⟨j', hj', rfl⟩ := h
      obtain ⟨t, ht⟩ := ih j' hj'
      exact ⟨t, by simpa using ht⟩

theorem levelCount_gt_one (r : List Char) : 1 < levelCount r ↔ '/' ∈ r := by
  unfold levelCount
  rw [show (1 < r.count '/' + 1 ↔ 0 < r.count '/') from by omega]
  exact List.count_pos_iff

theorem add_path_rejected_iff (path : List Char) :
    pidfile_add_path path = .rejected ↔
      ∃ i, strstrIdx runSlash path = some i ∧ '/' ∈ path.drop (i + 4) := by
  unfold pidfile_add_path
  split
  next hs => simp [hs]
  next i hs =>
    split
    next hc =>
      have hnot := (strchrIdx_eq_none_iff '/' _).mp hc
      simp [hs, hnot]
    next j hc =>
      split
      next hc2 =>
        obtain ⟨t, ht⟩ := strchrIdx_drop_self '/' _ j hc
        rw [ht] at hc2
        simp [strchrIdx] at hc2
      next k hc2 =>
        obtain ⟨t, ht⟩ := strchrIdx_drop_self '/' _ j hc
        have hmem : '/' ∈ path.drop (i + 4) :=
          List.mem_of_mem_drop (by rw [ht]; exact List.mem_cons_self _ _)
        simp [hs, hmem]

/-- C1.  `pidfile_add_path` rejects a path (returns -1, adding no watch)
exactly when the path contains "run/" and the remainder after it spans more
than one '/'-separated level; every other path is handed to `iwatch_add`
with `IN_ONLYDIR`. -/
theorem pidfile_add_path_one_level (path : List Char) :
    (pidfile_add_path path = .rejected ↔
      ∃ r, runRemainder path = some r ∧ 1 < levelCount r) ∧
    (pidfile_add_path path = .rejected ∨
      pidfile_add_path path = .watch path IN_ONLYDIR) := by
  constructor
  · rw [add_path_rejected_iff]
    unfold runRemainder
    constructor
    · rintro ⟨i, hi, hmem⟩
      exact ⟨path.drop (i + 4), by rw [hi]; rfl,
        (levelCount_gt_one _).mpr hmem⟩
    · rintro ⟨r, hr, hlev⟩
      rcases hs : strstrIdx runSlash path with _ | i
      · rw [hs] at hr; cases hr
      · rw [hs] at hr
        have hr' : path.drop (i + 4) = r := by simpa using hr
        refine ⟨i, rfl, ?_⟩
        rw [hr']
        exact (levelCount_gt_one _).mp hlev
  · unfold pidfile_add_path
    split
    · right; rfl
    · split
      · right; rfl
      · split
        · right; rfl
        · left; rfl

/-- Concrete check of C1: "/run/a/b" (two levels below run/) is rejected,
"/run/a" (one level) and "/tmp/x" (no "run/") get a directory-only watch. -/
theorem pidfile_add_path_one_level_witness :
    pidfile_add_path "/run/a/b".toList = .rejected ∧
    pidfile_add_path "/run/a".toList = .watch "/run/a".toList IN_ONLYDIR := by
  constructor
  · exact (pidfile_add_path_one_level "/run/a/b".toList).1.mpr
      ⟨"a/b".toList, by decide, by decide⟩
  · rcases (pidfile_add_path_one_level "/run/a".toList).2 with h | h
    · exact absurd ((pidfile_add_path_one_level "/run/a".toList).1.mp h)
        (by decide)
    · exact h

/-! ## Condition store and service records (for the pidfile watcher) -/

/-- Tri-state condition values of the condition engine, plus `ABSENT` for a
never-declared name.  Modelled from the spec: cond.c is not among the
sources; the spec describes a map from condition name to ON/OFF/FLUX. -/
inductive CondVal
  | ON
  | OFF
  | FLUX
  | ABSENT
  deriving DecidableEq

/-- The condition store, a map from condition names to tri-state values.
Modelled from the spec (cond.c is not among the sources). -/
abbrev CondStore : Type := String → CondVal

/-- Write one condition; models `cond_set` / `cond_clear` / `cond_set_path`
(cond.c, not among the sources) at the level of the stored value. -/
def condWrite (st : CondStore) (name : String) (v : CondVal) : CondStore :=
  fun n => if n = name then v else st n

/-- Service FSM states, from the spec's state list (svc.h is not among the
sources; only `SVC_RUNNING_STATE` is tested by the code under study). -/
inductive SvcState
  | halted
  | conditional
  | setup
  | starting
  | running
  | stopping
  | halting
  | crashed
  deriving DecidableEq

/-- A service record, restricted to the attributes the pidfile watcher
touches.  Modelled from the spec: svc.h/svc.c are not among the sources.
`started` is the flag raised by `svc_started`; `changed` and `starting` are
the flags tested by `svc_is_changed` / `svc_is_starting`. -/
structure SvcR where
  name : String
  pidfile : String
  forking : Bool
  pid : Int
  state : SvcState
  changed : Bool
  starting : Bool
  started : Bool
  deriving DecidableEq

/-- Modelled from the spec: `mkcond` (pid.h, not among the sources) renders
the pidfile-derived condition name `pid/<svc>` of a service. -/
def mkcond (s : SvcR) : String := "pid/" ++ s.name

/-- The `fnmatch` test of `pidfile_update_conds`: with no flags a leading
`*` matches any prefix, so pattern `*\.pid` tests the literal suffix ".pid"
and `*/pid` the literal suffix "/pid"; the code proceeds when either
pattern matches. -/
def matchesPidPat (fn : String) : Bool :=
  trailsWith ".pid".toList fn.toList || trailsWith "/pid".toList fn.toList

/-- inotify event masks (values from the Linux inotify ABI). -/
def IN_MODIFY : Nat := 0x2

def IN_ATTRIB : Nat := 0x4

def IN_MOVED_TO : Nat := 0x80

def IN_CREATE : Nat := 0x100

def IN_DELETE : Nat := 0x200

def IN_ISDIR : Nat := 0x40000000

/-- The mask `IN_CREATE | IN_ATTRIB | IN_MODIFY | IN_MOVED_TO` tested both
by `pidfile_update_conds` and by `pidfile_callback`. -/
def IN_PID_SET_MASK : Nat := IN_CREATE ||| IN_ATTRIB ||| IN_MODIFY ||| IN_MOVED_TO

/-- Replace the first element satisfying `p` by its image under `f`;
models in-place mutation of the record a lookup returned. -/
def updateFirst (p : α → Bool) (f : α → α) : List α → List α
  | [] => []
  | a :: as => if p a then f a :: as else a :: updateFirst p f as

/-- Modelled from the spec: `pid_file_read` (pid.c, not among the sources)
reads the pid recorded in a pidfile; `files` maps a path to the pid stored
there, `none` when the file is missing or unreadable (read failure is -1). -/
def pid_file_read (files : String → Option Int) (path : String) : Int :=
  (files path).getD (-1)

/-- Shallow embedding of `pidfile_update_conds` (src/plugins/pidfile.c).
`files` models pidfile contents; `svc_find_by_pidfile` (svc.c, not among
the sources) returns the first registered service whose pidfile path equals
`fn`.  On a CREATE/ATTRIB/MODIFY/MOVED_TO mask the service is marked
started, a forking service's pid is replaced by the pidfile's contents, and
its condition is set; on a DELETE mask the condition is cleared. -/
def pidfile_update_conds (files : String → Option Int) (svcs : List SvcR)
    (st : CondStore) (dir name : String) (mask : Nat) :
    List SvcR × CondStore :=
  let fn := dir ++ "/" ++ name
  if !(matchesPidPat fn) then (svcs, st)
  else
    match svcs.find? (fun s => s.pidfile == fn) with
    | none => (svcs, st)
    | some svc =>
      if mask &&& IN_PID_SET_MASK ≠ 0 then
        let newPid := if svc.forking then pid_file_read files svc.pidfile else svc.pid
        let svc' := { svc with started := true, pid := newPid }
        (updateFirst (fun s => s.pidfile == fn) (fun _ => svc') svcs,
         condWrite st (mkcond svc) .ON)
      else if mask &&& IN_DELETE ≠ 0 then
        (svcs, condWrite st (mkcond svc) .OFF)
      else (svcs, st)

/-- What one loop iteration of `pidfile_callback` did with an event. -/
inductive EvAction
  | skipped
  | dirEvent
  | ignoredDelete
  | updated
  deriving DecidableEq

/-- Shallow embedding of one iteration of the event loop in
`pidfile_callback` (src/plugins/pidfile.c).  `basePath` is the path of the
watch `iwatch_find_by_wd` resolves the event's descriptor to (`none` for an
unknown descriptor).  Directory events go to `pidfile_handle_dir` (watch
bookkeeping plus a rescan, both filesystem reads), recorded here as the
`dirEvent` action; a DELETE on a file is logged and skipped; the
CREATE/ATTRIB/MODIFY/MOVED_TO masks go to `pidfile_update_conds`. -/
def pidfile_handle_event (files : String → Option Int) (svcs : List SvcR)
    (st : CondStore) (basePath : Option String) (name : String)
    (mask : Nat) : List SvcR × CondStore × EvAction :=
  if mask = 0 then (svcs, st, .skipped)
  else
    match basePath with
    | none => (svcs, st, .skipped)
    | some dir =>
      if mask &&& IN_ISDIR ≠ 0 then (svcs, st, .dirEvent)
      else if mask &&& IN_DELETE ≠ 0 then (svcs, st, .ignoredDelete)
      else if mask &&& IN_PID_SET_MASK ≠ 0 then
        let r := pidfile_update_conds files svcs st dir name mask
        (r.1, r.2, .updated)
      else (svcs, st, .skipped)

/-- A concrete registered service with pidfile `/run/foo.pid`. -/
def sv0 : SvcR :=
  { name := "foo", pidfile := "/run/foo.pid", forking := false, pid := 42,
    state := .running, changed := false, starting := false, started := true }

/-- A concrete condition store with `pid/foo` ON. -/
def st0 : CondStore := fun n => if n = "pid/foo" then .ON else .ABSENT

/-- A concrete filesystem with no readable pidfiles. -/
def files0 : String → Option Int := fun _ => none

/-- C2, counterexample.  A DELETE inotify event on the non-directory name
"foo.pid" — which matches `*.pid` and belongs to the registered service
`sv0` — is skipped by `pidfile_callback` with only a debug log: the
`pid/foo` condition stays ON instead of being cleared as the claim
demands. -/
theorem pidfile_delete_event_ignored_cex :
    matchesPidPat ("/run" ++ "/" ++ "foo.pid") = true ∧
    [sv0].find? (fun s => s.pidfile == "/run" ++ "/" ++ "foo.pid")
      = some sv0 ∧
    pidfile_handle_event files0 [sv0] st0 (some "/run") "foo.pid" IN_DELETE
      = ([sv0], st0, .ignoredDelete) ∧
    (pidfile_handle_event files0 [sv0] st0 (some "/run") "foo.pid"
        IN_DELETE).2.1 "pid/foo" = CondVal.ON :=
  ⟨rfl, rfl, rfl, rfl⟩

theorem find?_updateFirst (p : α → Bool) (f : α → α) (l : List α) (a : α)
    (h : l.find? p = some a) (hf : p (f a) = true) :
    (updateFirst p f l).find? p = some (f a) := by
  induction l with
  | nil => simp [List.find?] at h
  | cons x xs ih =>
    by_cases hx : p x
    · rw [List.find?_cons_of_pos _ hx] at h
      injection h with h
      subst h
      simp [updateFirst, hx, List.find?_cons, hf]
    · have hxf : p x = false := by simpa using hx
      simp only [List.find?_cons, hxf] at h
      simp [updateFirst, hxf, List.find?_cons, ih h]

/-- C2, amended.  For a non-directory event handled by `pidfile_callback`:
a mask containing CREATE/ATTRIB/MODIFY/MOVED_TO (and not DELETE) on a name
matching `*.pid` or `pid` that belongs to a registered service sets the
`pid/<svc>` condition; a DELETE mask is ignored — the event is skipped and
the condition store is left unchanged rather than cleared. -/
theorem pidfile_event_conditions (files : String → Option Int)
    (svcs : List SvcR) (st : CondStore) (dir name : String) (mask : Nat)
    (hnz : mask ≠ 0) (hdir : mask &&& IN_ISDIR = 0) :
    (mask &&& IN_DELETE ≠ 0 →
      pidfile_handle_event files svcs st (some dir) name mask
        = (svcs, st, .ignoredDelete)) ∧
    (mask &&& IN_DELETE = 0 → mask &&& IN_PID_SET_MASK ≠ 0 →
      ∀ svc, matchesPidPat (dir ++ "/" ++ name) = true →
        svcs.find? (fun s => s.pidfile == dir ++ "/" ++ name) = some svc →
        (pidfile_handle_event files svcs st (some dir) name
            mask).2.1 (mkcond svc) = .ON ∧
        (pidfile_handle_event files svcs st (some dir) name
            mask).2.2 = .updated) := by
  constructor
  · intro hdel
    unfold pidfile_handle_event
    simp [hnz, hdir, hdel]
  · intro hdel hcam svc hmatch hfind
    unfold pidfile_handle_event pidfile_update_conds
    simp [hnz, hdir, hdel, hcam, hmatch, hfind, condWrite]

/-- Concrete check of the amended C2: a CREATE event on "foo.pid" sets
`pid/foo`, and a DELETE event leaves the store untouched. -/
theorem pidfile_event_conditions_witness :
    (pidfile_handle_event files0 [sv0] (fun _ => CondVal.ABSENT)
        (some "/run") "foo.pid" IN_CREATE).2.1 "pid/foo" = CondVal.ON ∧
    pidfile_handle_event files0 [sv0] st0 (some "/run") "foo.pid" IN_DELETE
      = ([sv0], st0, .ignoredDelete) := by
  constructor
  · have h := (pidfile_event_conditions files0 [sv0] (fun _ => CondVal.ABSENT)
      "/run" "foo.pid" IN_CREATE (by decide) (by decide)).2
      (by decide) (by decide) sv0 (by decide) (by decide)
    exact h.1
  · exact (pidfile_event_conditions files0 [sv0] st0 "/run" "foo.pid"
      IN_DELETE (by decide) (by decide)).1 (by decide)

/-- C3.  When `pidfile_update_conds` processes a CREATE/ATTRIB/MODIFY/
MOVED_TO mask for a registered service: a forking service's recorded pid is
replaced by the value read from its pidfile and its condition is set ON; a
non-forking service keeps its recorded pid (the conditional `pid` field
below collapses to `svc.pid`), with the condition likewise set ON. -/
theorem pidfile_forking_adopts_pid (files : String → Option Int)
    (svcs : List SvcR) (st : CondStore) (dir name : String) (mask : Nat)
    (svc : SvcR) (hmatch : matchesPidPat (dir ++ "/" ++ name) = true)
    (hfind : svcs.find? (fun s => s.pidfile == dir ++ "/" ++ name) = some svc)
    (hmask : mask &&& IN_PID_SET_MASK ≠ 0) :
    (pidfile_update_conds files svcs st dir name mask).1.find?
        (fun s => s.pidfile == dir ++ "/" ++ name)
      = some { svc with
               started := true
               pid := (if svc.forking then pid_file_read files svc.pidfile
                       else svc.pid) } ∧
    (pidfile_update_conds files svcs st dir name mask).2 (mkcond svc)
      = .ON := by
  have hps0 := List.find?_some hfind
  constructor
  · unfold pidfile_update_conds
    simp [hmatch, hfind, hmask]
    exact find?_updateFirst _ _ svcs svc hfind (by simpa using hps0)
  · unfold pidfile_update_conds
    simp [hmatch, hfind, hmask, condWrite]

/-- Concrete check of C3: a forking service adopts pid 123 from its
pidfile; a non-forking one keeps pid 42. -/
theorem pidfile_forking_adopts_pid_witness :
    (pidfile_update_conds (fun p => if p = "/run/foo.pid" then some 123 else none)
        [{ sv0 with forking := true }] st0 "/run" "foo.pid" IN_CREATE).1.find?
        (fun s => s.pidfile == "/run" ++ "/" ++ "foo.pid")
      = some { sv0 with forking := true, started := true, pid := 123 } ∧
    (pidfile_update_conds files0 [sv0] st0 "/run" "foo.pid" IN_CREATE).1.find?
        (fun s => s.pidfile == "/run" ++ "/" ++ "foo.pid")
      = some { sv0 with started := true, pid := 42 } := by
  constructor
  · have h := (pidfile_forking_adopts_pid
      (fun p => if p = "/run/foo.pid" then some 123 else none)
      [{ sv0 with forking := true }] st0 "/run" "foo.pid" IN_CREATE
      { sv0 with forking := true } (by decide) (by decide) (by decide)).1
    rw [h]; rfl
  · have h := (pidfile_forking_adopts_pid files0 [sv0] st0 "/run" "foo.pid"
      IN_CREATE sv0 (by decide) (by decide) (by decide)).1
    rw [h]; rfl

/-! ## The post-reload reassertion pass (`pidfile_reconf`) -/

/-- Service type mask bits, modelled from the spec's record kinds (svc.h is
not among the sources; only the identity of the mask handed to
`service_step_all` matters, not the numeric values). -/
def SVC_TYPE_SERVICE : Nat := 1

/-- See `SVC_TYPE_SERVICE`. -/
def SVC_TYPE_RUNTASK : Nat := 6

/-- The iteration of `pidfile_reconf` (src/plugins/pidfile.c) over the
service registry, accumulating the store and the list of condition paths
written by `cond_set_path(cond_path(cond), COND_ON)`.  A service is skipped
when it is not in `SVC_RUNNING_STATE`, when `svc_is_changed` or
`svc_is_starting` holds, or when `cond_get` already reports `COND_ON`. -/
def pidfile_reconf_loop : List SvcR → CondStore → List String →
    CondStore × List String
  | [], st, w => (st, w)
  | svc :: rest, st, w =>
    if svc.state ≠ .running then pidfile_reconf_loop rest st w
    else if svc.changed || svc.starting then pidfile_reconf_loop rest st w
    else if st (mkcond svc) = .ON then pidfile_reconf_loop rest st w
    else pidfile_reconf_loop rest (condWrite st (mkcond svc) .ON)
      (w ++ [mkcond svc])

/-- Shallow embedding of `pidfile_reconf` (src/plugins/pidfile.c): the
reassertion loop over all services followed by
`service_step_all(SVC_TYPE_SERVICE | SVC_TYPE_RUNTASK)`, whose type-mask
argument is returned as the third component. -/
def pidfile_reconf (svcs : List SvcR) (st : CondStore) :
    CondStore × List String × Nat :=
  let r := pidfile_reconf_loop svcs st []
  (r.1, r.2, SVC_TYPE_SERVICE ||| SVC_TYPE_RUNTASK)

/-- The reassertion test of C4 as a boolean predicate over a fixed store. -/
def reassertTest (st : CondStore) (s : SvcR) : Bool :=
  decide (s.state = .running) && !s.changed && !s.starting
    && decide (st (mkcond s) ≠ .ON)

theorem reconf_loop_written (svcs : List SvcR) (st : CondStore)
    (w : List String) (hnd : (svcs.map mkcond).Nodup) :
    (pidfile_reconf_loop svcs st w).2
      = w ++ (svcs.filter (reassertTest st)).map mkcond := by
  induction svcs generalizing st w with
  | nil => simp [pidfile_reconf_loop]
  | cons svc rest ih =>
    have hnd' : (rest.map mkcond).Nodup := (List.nodup_cons.mp hnd).2
    have hne : mkcond svc ∉ rest.map mkcond := (List.nodup_cons.mp hnd).1
    by_cases h1 : svc.state = .running
    · by_cases h2 : (svc.changed || svc.starting) = true
      · simp only [pidfile_reconf_loop]
        rw [if_neg (by simp [h1]), if_pos h2, ih st w hnd']
        have hft : reassertTest st svc = false := by
          cases hc : svc.changed
          · have hs : svc.starting = true := by simpa [hc] using h2
            simp [reassertTest, hs]
          · simp [reassertTest, hc]
        simp [List.filter_cons, hft]
      · by_cases h3 : st (mkcond svc) = .ON
        · simp only [pidfile_reconf_loop]
          rw [if_neg (by simp [h1]), if_neg h2, if_pos h3, ih st w hnd']
          have hft : reassertTest st svc = false := by
            simp [reassertTest, h3]
          simp [List.filter_cons, hft]
        · simp only [pidfile_reconf_loop]
          rw [if_neg (by simp [h1]), if_neg h2, if_neg h3,
            ih (condWrite st (mkcond svc) .ON) (w ++ [mkcond svc]) hnd']
          have hagree : rest.filter (reassertTest (condWrite st (mkcond svc) .ON))
              = rest.filter (reassertTest st) := by
            apply List.filter_congr
            intro s hs
            have hneq : mkcond s ≠ mkcond svc := by
              intro hEq
              exact hne (hEq ▸ List.mem_map_of_mem mkcond hs)
            simp [reassertTest, condWrite, hneq]
          have hb : svc.changed = false ∧ svc.starting = false := by
            constructor
            · cases hc : svc.changed
              · rfl
              · exact absurd (by simp [hc]) h2
            · cases hs : svc.starting
              · rfl
              · exact absurd (by simp [hs]) h2
          have htest : reassertTest st svc = true := by
            simp [reassertTest, h1, h3, hb.1, hb.2]
          rw [hagree]
          simp [List.filter_cons, htest]
    · simp only [pidfile_reconf_loop]
      rw [if_pos h1, ih st w hnd']
      have hft : reassertTest st svc = false := by simp [reassertTest, h1]
      simp [List.filter_cons, hft]

/-- C4.  During the post-reload pass, a service's own condition path is
written ON exactly when the service is running, not changed, not starting,
and its condition is not already ON (given one condition per service);
every other service is skipped, and afterwards `service_step_all` runs with
the service and run/task type mask. -/
theorem pidfile_reconf_reasserts (svcs : List SvcR) (st : CondStore)
    (hnd : (svcs.map mkcond).Nodup) :
    (pidfile_reconf svcs st).2.1
      = (svcs.filter (reassertTest st)).map mkcond ∧
    (pidfile_reconf svcs st).2.2 = SVC_TYPE_SERVICE ||| SVC_TYPE_RUNTASK := by
  refine ⟨?_, rfl⟩
  have h := reconf_loop_written svcs st [] hnd
  simpa [pidfile_reconf] using h

/-- Concrete check of C4: of four services — running-and-clean, changed,
starting, and one whose condition is already ON — only the first has its
condition written, and the step mask covers services and run/tasks. -/
theorem pidfile_reconf_reasserts_witness :
    (pidfile_reconf
        [sv0,
         { sv0 with name := "bar", pidfile := "/run/bar.pid", changed := true },
         { sv0 with name := "baz", pidfile := "/run/baz.pid", starting := true },
         { sv0 with name := "qux", pidfile := "/run/qux.pid" }]
        (fun n => if n = "pid/qux" then .ON else .ABSENT)).2.1
      = ["pid/foo"] ∧
    (pidfile_reconf [sv0] st0).2.2 = SVC_TYPE_SERVICE ||| SVC_TYPE_RUNTASK := by
  constructor
  · have h := (pidfile_reconf_reasserts
      [sv0,
       { sv0 with name := "bar", pidfile := "/run/bar.pid", changed := true },
       { sv0 with name := "baz", pidfile := "/run/baz.pid", starting := true },
       { sv0 with name := "qux", pidfile := "/run/qux.pid" }]
      (fun n => if n = "pid/qux" then .ON else .ABSENT) (by decide)).1
    rw [h]; rfl
  · exact (pidfile_reconf_reasserts [sv0] st0 (by decide)).2

/-! ## Plugin registry and hook dispatcher (src/unnamed/part_000) -/

/-- Hook points.  Modelled from the spec: plugin.h's `hook_point_t` enum is
not among the sources.  The spec lists BANNER, ROOTFS_UP, BASEFS_UP,
NETWORK_UP, SVC_PLUGIN, SVC_START, SVC_RECONF, SVC_STOP, SHUTDOWN; the
source additionally uses HOOK_MOUNT_ERROR in `plugin_run_hook`, a
mount-stage hook placed after ROOTFS_UP and before BASEFS_UP (per the
source comment, conditions live in /run and can only be signalled once
filesystems are mounted, which happens before the base filesystem is
declared up). -/
inductive HookPoint
  | BANNER
  | ROOTFS_UP
  | MOUNT_ERROR
  | MOUNT_POST
  | BASEFS_UP
  | SVC_PLUGIN
  | NETWORK_UP
  | SVC_START
  | SVC_RECONF
  | SVC_STOP
  | SHUTDOWN
  deriving DecidableEq

/-- The numeric value of a hook point in the enum order above; `>=`
comparisons on hook points in the C code compare these. -/
def hookIdx : HookPoint → Nat
  | .BANNER => 0
  | .ROOTFS_UP => 1
  | .MOUNT_ERROR => 2
  | .MOUNT_POST => 3
  | .BASEFS_UP => 4
  | .SVC_PLUGIN => 5
  | .NETWORK_UP => 6
  | .SVC_START => 7
  | .SVC_RECONF => 8
  | .SVC_STOP => 9
  | .SHUTDOWN => 10

/-- Modelled from the spec: the `hook_cond` table built from HOOK_TYPES
(plugin.h, not among the sources) names each hook's oneshot condition
`hook/<name>`. -/
def hook_cond : HookPoint → String
  | .BANNER => "hook/banner"
  | .ROOTFS_UP => "hook/rootfs-up"
  | .MOUNT_ERROR => "hook/mount-error"
  | .MOUNT_POST => "hook/mount-post"
  | .BASEFS_UP => "hook/basefs-up"
  | .SVC_PLUGIN => "hook/svc-plugin"
  | .NETWORK_UP => "hook/network-up"
  | .SVC_START => "hook/svc-start"
  | .SVC_RECONF => "hook/svc-reconf"
  | .SVC_STOP => "hook/svc-stop"
  | .SHUTDOWN => "hook/shutdown"

/-- A plugin record: optional name (NULL allowed until registration fills
it in), per-hook-point callback slots — `some a` meaning a callback with
registered argument `a` (the C `void *` arguments are numbered) — and the
dependency name list. -/
structure PluginR where
  name : Option String
  hooks : HookPoint → Option Nat
  depends : List String

/-- The dispatcher's state: the plugin path set by the first directory load
and the registered plugin list (TAILQ, front to back). -/
structure PluginState where
  plugpath : Option String
  plugins : List PluginR

/-- C `fisslashdir` (libite, not among the sources): the path ends in '/'. -/
def fisslashdir (p : String) : Bool := trailsWith "/".toList p.toList

/-- Shallow embedding of `plugin_find` (src/unnamed/part_000): first an
exact name search over the list; if that misses and a plugin path is set
and the name is not absolute, search again for the path-prefixed name with
".so" appended unless already present. -/
def plugin_find (st : PluginState) (name : String) : Option PluginR :=
  match st.plugins.find? (fun p => p.name == some name) with
  | some p => some p
  | none =>
    match st.plugpath with
    | none => none
    | some pp =>
      if name.toList.head? = some '/' then none
      else
        let noext := !(trailsWith ".so".toList name.toList)
        let path := pp ++ (if fisslashdir pp then "" else "/") ++ name
          ++ (if noext then ".so" else "")
        st.plugins.find? (fun p => p.name == some path)

/-- Shallow embedding of `trim_ext` (src/unnamed/part_000): truncate the
name at the first ".so" occurrence, else at the first ".c" occurrence. -/
def trim_ext (name : String) : String :=
  match strstrIdx ".so".toList name.toList with
  | some i => String.mk (name.toList.take i)
  | none =>
    match strstrIdx ".c".toList name.toList with
    | some i => String.mk (name.toList.take i)
    | none => name

/-- Modelled from the spec: `check_plugin_depends` resolves dependencies by
opportunistically loading any listed but missing plugin.  `load_one`/`dlopen`
are dynamic-loader I/O outside the sources: `env` maps a dependency name to
the plugin record its constructor would register (`none` when the object is
missing or fails to load), registered here with the duplicate check of
`plugin_register`; the dependency's own dependencies were resolved when its
object was built, so one level is resolved here. -/
def check_plugin_depends (env : String → Option PluginR) (st : PluginState)
    (deps : List String) : PluginState :=
  deps.foldl
    (fun s d =>
      if (plugin_find s d).isSome then s
      else
        match env d with
        | none => s
        | some q =>
          let nm := trim_ext (q.name.getD "unknown")
          if (plugin_find s nm).isSome then s
          else { s with plugins := s.plugins ++ [{ q with name := some nm }] })
    st

/-- Shallow embedding of `plugin_register` (src/unnamed/part_000).  A NULL
plugin is `none` (EINVAL, return 1).  A missing name is defaulted (the
dladdr-derived object basename, summarized as the record's given name or
"unknown") and extension-trimmed; a plugin whose name is already registered
is dropped with return 0; otherwise dependencies are resolved and the
record is appended at the tail of the list. -/
def plugin_register (env : String → Option PluginR) (st : PluginState)
    (pl : Option PluginR) : PluginState × Nat :=
  match pl with
  | none => (st, 1)
  | some p =>
    let nm := trim_ext (p.name.getD "unknown")
    if (plugin_find st nm).isSome then (st, 0)
    else
      let st1 := check_plugin_depends env st p.depends
      ({ st1 with plugins := st1.plugins ++ [{ p with name := some nm }] }, 0)

/-- Call log of the iteration in `plugin_run_hook`
(src/unnamed/part_000): for each plugin with a callback at the hook point,
front to back, the plugin's name and the argument the callback receives
(`arg ? arg : p->hook[no].arg`). -/
def plugin_run_hook_calls (ps : List PluginR) (no : HookPoint)
    (arg : Option Nat) : List (Option String × Nat) :=
  match ps with
  | [] => []
  | p :: rest =>
    (match p.hooks no with
     | some a => [(p.name, arg.getD a)]
     | none => []) ++ plugin_run_hook_calls rest no arg

/-- Result of `plugin_run_hook`: the ordered call log, the condition set
oneshot afterwards (if any), and the mask handed to `service_step_all`. -/
structure RunHookResult where
  calls : List (Option String × Nat)
  condSet : Option String
  stepMask : Nat

/-- Shallow embedding of `plugin_run_hook` (src/unnamed/part_000): invoke
every callback registered at the hook point in list order, then — only for
hook points numerically at-or-after HOOK_MOUNT_ERROR — set the hook's
oneshot condition, and finally run `service_step_all(SVC_TYPE_RUNTASK)`. -/
def plugin_run_hook (st : PluginState) (no : HookPoint) (arg : Option Nat) :
    RunHookResult :=
  { calls := plugin_run_hook_calls st.plugins no arg
    condSet := if hookIdx no ≥ hookIdx .MOUNT_ERROR then some (hook_cond no)
               else none
    stepMask := SVC_TYPE_RUNTASK }

/-- C5, counterexample.  Firing the hooks at HOOK_MOUNT_ERROR — a hook
point strictly before BASEFS_UP — still sets the corresponding oneshot
condition: the gate in `plugin_run_hook` is `no >= HOOK_MOUNT_ERROR`, not
at-or-after BASEFS_UP as claimed. -/
theorem hook_cond_gate_cex :
    (plugin_run_hook ⟨none, []⟩ .MOUNT_ERROR none).condSet
      = some "hook/mount-error" ∧
    hookIdx .MOUNT_ERROR < hookIdx .BASEFS_UP :=
  ⟨rfl, by decide⟩

/-- C5, amended.  After all callbacks at a hook point have run, the hook's
oneshot condition is set iff the point is numerically at-or-after
HOOK_MOUNT_ERROR (two positions before BASEFS_UP); for points before
MOUNT_ERROR no condition is set; `service_step_all` then runs over
run/tasks. -/
theorem hook_cond_gate (st : PluginState) (no : HookPoint)
    (arg : Option Nat) :
    ((plugin_run_hook st no arg).condSet = some (hook_cond no) ↔
      hookIdx .MOUNT_ERROR ≤ hookIdx no) ∧
    ((plugin_run_hook st no arg).condSet = none ↔
      hookIdx no < hookIdx .MOUNT_ERROR) ∧
    (plugin_run_hook st no arg).stepMask = SVC_TYPE_RUNTASK := by
  by_cases h : hookIdx HookPoint.MOUNT_ERROR ≤ hookIdx no
  · refine ⟨?_, ?_, rfl⟩
    · simp [plugin_run_hook, h]
    · simp [plugin_run_hook, h]
  · refine ⟨?_, ?_, rfl⟩
    · simp [plugin_run_hook, h]
    · simp [plugin_run_hook, h]
      omega

/-- Concrete check of the amended C5: BASEFS_UP (after MOUNT_ERROR) does
set its oneshot condition, BANNER (before MOUNT_ERROR) does not. -/
theorem hook_cond_gate_witness :
    (plugin_run_hook ⟨none, []⟩ .BASEFS_UP none).condSet
      = some "hook/basefs-up" ∧
    (plugin_run_hook ⟨none, []⟩ .BANNER none).condSet = none := by
  constructor
  · exact ((hook_cond_gate ⟨none, []⟩ .BASEFS_UP none).1).mpr (by decide)
  · exact ((hook_cond_gate ⟨none, []⟩ .BANNER none).2.1).mpr (by decide)

theorem plugin_find_of_member (st : PluginState) (nm : String)
    (h : (st.plugins.find? (fun q => q.name == some nm)).isSome = true) :
    (plugin_find st nm).isSome = true := by
  unfold plugin_find
  cases hq : st.plugins.find? (fun q => q.name == some nm) with
  | none => rw [hq] at h; simp at h
  | some q => rfl

theorem plugin_register_of_found (env : String → Option PluginR)
    (st : PluginState) (p : PluginR)
    (h : (plugin_find st (trim_ext (p.name.getD "unknown"))).isSome = true) :
    plugin_register env st (some p) = (st, 0) := by
  unfold plugin_register
  simp [h]

/-- C6.  Registering a plugin whose extension-trimmed name is already the
name of a registered plugin returns success and changes nothing — no
dependency resolution, no insertion — and hence registering the same
plugin twice leaves the state of the first registration in place. -/
theorem plugin_register_duplicate_noop :
    (∀ (env : String → Option PluginR) (st : PluginState) (p : PluginR),
      (st.plugins.find? (fun q =>
          q.name == some (trim_ext (p.name.getD "unknown")))).isSome = true →
      plugin_register env st (some p) = (st, 0)) ∧
    (∀ (env : String → Option PluginR) (st : PluginState) (p : PluginR),
      plugin_register env (plugin_register env st (some p)).1 (some p)
        = ((plugin_register env st (some p)).1, 0)) := by
  constructor
  · intro env st p h
    exact plugin_register_of_found env st p (plugin_find_of_member st _ h)
  · intro env st p
    by_cases h1 : (plugin_find st (trim_ext (p.name.getD "unknown"))).isSome = true
    · have hfirst := plugin_register_of_found env st p h1
      rw [hfirst]
      exact hfirst
    · have h1f : (plugin_find st (trim_ext (p.name.getD "unknown"))).isSome
          = false := by simpa using h1
      have hfirst : (plugin_register env st (some p)).1.plugins
          = (check_plugin_depends env st p.depends).plugins
            ++ [{ p with name := some (trim_ext (p.name.getD "unknown")) }] := by
        unfold plugin_register
        simp [h1f]
      have hfind2 : ((plugin_register env st (some p)).1.plugins.find?
          (fun q => q.name == some (trim_ext (p.name.getD "unknown")))).isSome
            = true := by
        rw [hfirst, List.find?_isSome]
        exact ⟨_, List.mem_append_right _ (List.mem_singleton_self _), by simp⟩
      exact plugin_register_of_found env _ p (plugin_find_of_member _ _ hfind2)

/-- A registered plugin named "alpha" (hook and dependency free). -/
def stA : PluginState :=
  { plugpath := none
    plugins := [{ name := some "alpha", hooks := fun _ => none, depends := [] }] }

/-- A plugin whose extension-trimmed name collides with "alpha". -/
def plA : PluginR :=
  { name := some "alpha.so", hooks := fun _ => none, depends := [] }

/-- Concrete check of C6: re-registering "alpha.so" over a registry already
holding "alpha" succeeds and leaves the registry untouched. -/
theorem plugin_register_duplicate_noop_witness :
    plugin_register (fun _ => none) stA (some plA) = (stA, 0) :=
  plugin_register_duplicate_noop.1 (fun _ => none) stA plA (by decide)

/-- C7.  `plugin_run_hook` invokes exactly the plugins with a callback at
the hook point, each once, in list order (the filter keeps list order),
and `plugin_register` appends a fresh plugin at the tail of the list, so
invocation order is registration order. -/
theorem plugin_hooks_in_load_order :
    (∀ (ps : List PluginR) (no : HookPoint) (arg : Option Nat),
      plugin_run_hook_calls ps no arg
        = (ps.filter (fun p => (p.hooks no).isSome)).map
            (fun p => (p.name, arg.getD ((p.hooks no).getD 0)))) ∧
    (∀ (env : String → Option PluginR) (st : PluginState) (p : PluginR),
      p.depends = [] →
      plugin_find st (trim_ext (p.name.getD "unknown")) = none →
      (plugin_register env st (some p)).1.plugins
        = st.plugins
          ++ [{ p with name := some (trim_ext (p.name.getD "unknown")) }]) := by
  constructor
  · intro ps no arg
    induction ps with
    | nil => simp [plugin_run_hook_calls]
    | cons p rest ih =>
      cases hp : p.hooks no with
      | none => simp [plugin_run_hook_calls, hp, List.filter_cons, ih]
      | some a => simp [plugin_run_hook_calls, hp, List.filter_cons, ih]
  · intro env st p hdep hfind
    unfold plugin_register
    simp [hfind, hdep, check_plugin_depends]

/-- A plugin with a BASEFS_UP callback (argument 1). -/
def plB : PluginR :=
  { name := some "beta"
    hooks := fun no => if no = .BASEFS_UP then some 1 else none
    depends := [] }

/-- A plugin with a BASEFS_UP callback (argument 2). -/
def plC : PluginR :=
  { name := some "gamma"
    hooks := fun no => if no = .BASEFS_UP then some 2 else none
    depends := [] }

/-- Concrete check of C7: with "beta" registered before "gamma", the
BASEFS_UP callbacks fire as beta-then-gamma, and registering "beta" into
an empty registry appends it (one plugin registered). -/
theorem plugin_hooks_in_load_order_witness :
    plugin_run_hook_calls [plB, plC] .BASEFS_UP none
      = [(some "beta", 1), (some "gamma", 2)] ∧
    (plugin_register (fun _ => none) ⟨none, []⟩ (some plB)).1.plugins.length
      = 1 := by
  constructor
  · rw [plugin_hooks_in_load_order.1 [plB, plC] .BASEFS_UP none]
    rfl
  · have h := plugin_hooks_in_load_order.2 (fun _ => none) ⟨none, []⟩ plB rfl rfl
    rw [h]
    rfl

/-! ## TTY registry (src/unnamed/part_000) -/

/-- Signal numbers (POSIX values). -/
def SIGKILL : Nat := 9

/-- See `SIGKILL`. -/
def SIGTERM : Nat := 15

/-- Process-level actions the TTY code performs: `kill(pid, signo)` and
`waitpid(pid, NULL, 0)`. -/
inductive ProcEvent
  | signal (pid : Int) (signo : Nat)
  | reap (pid : Int)
  deriving DecidableEq

/-- A `finit_tty_t` record, restricted to the fields the studied functions
touch (the rlimit vector and the external-getty argv are carried along in
the C but never branched on here). -/
structure FinitTty where
  name : String
  baud : Option String
  term : Option String
  noclear : Bool
  nowait : Bool
  runlevels : Nat
  cmd : Option String
  pid : Int
  deriving DecidableEq

/-- A `tty_node_t`: the record plus the reload dirty flag
(-1 removed, 0 clean, 1 modified). -/
structure TtyNode where
  data : FinitTty
  dirty : Int
  deriving DecidableEq

/-- The process environment `tty_start` consults: `canonicalize` (sysfs
and /dev stat calls), `tty_exist` (open + tcgetattr; `ttyOk dev` means the
device is a valid TTY), and the pid `run_getty`/`run_getty2` returns for a
spawned getty. -/
structure TtyEnv where
  canon : String → Option String
  ttyOk : String → Bool
  spawn : String → FinitTty → Int

/-- Shallow embedding of `tty_stop` (src/unnamed/part_000): a live process
gets exactly one signal, SIGKILL, is reaped with `waitpid`, and the pid is
reset; with pid 0 nothing happens. -/
def tty_stop (t : FinitTty) : FinitTty × List ProcEvent :=
  if t.pid = 0 then (t, [])
  else ({ t with pid := 0 }, [.signal t.pid SIGKILL, .reap t.pid])

/-- Shallow embedding of `tty_start` (src/unnamed/part_000): an already
active TTY (nonzero pid) returns at once; otherwise the device is
canonicalized and checked, and a getty is spawned (built-in `run_getty`
when no external command, `run_getty2` otherwise — both summarized by
`env.spawn`, which sees the record and hence its `cmd`). -/
def tty_start (env : TtyEnv) (t : FinitTty) : FinitTty :=
  if t.pid ≠ 0 then t
  else
    match env.canon t.name with
    | none => t
    | some dev =>
      if !(env.ttyOk dev) then t
      else { t with pid := env.spawn dev t }

/-- Shallow embedding of `tty_enabled` (src/unnamed/part_000):
`ISSET(tty->runlevels, runlevel)`. -/
def tty_enabled (rl : Nat) (t : FinitTty) : Bool := t.runlevels.testBit rl

/-- Shallow embedding of `tty_action` (src/unnamed/part_000): stop a TTY
not allowed at the current runlevel, start it otherwise. -/
def tty_action (env : TtyEnv) (rl : Nat) (t : FinitTty) :
    FinitTty × List ProcEvent :=
  if !(tty_enabled rl t) then tty_stop t
  else (tty_start env t, [])

/-- Shallow embedding of `tty_find` (src/unnamed/part_000): first node
whose device name matches. -/
def tty_find (dev : String) (l : List TtyNode) : Option TtyNode :=
  l.find? (fun n => n.data.name == dev)

/-- Shallow embedding of `tty_num` (src/unnamed/part_000). -/
def tty_num (l : List TtyNode) : Nat := l.length

/-- Shallow embedding of `tty_sweep` (src/unnamed/part_000): stop every
dirty TTY, and unregister those marked removed (dirty -1). -/
def tty_sweep : List TtyNode → List TtyNode × List ProcEvent
  | [] => ([], [])
  | n :: ns =>
    let r := tty_sweep ns
    if n.dirty = 0 then (n :: r.1, r.2)
    else
      let s := tty_stop n.data
      if n.dirty = -1 then (r.1, s.2 ++ r.2)
      else ({ data := s.1, dirty := n.dirty } :: r.1, s.2 ++ r.2)

/-- The per-device branch of `tty_reload` (src/unnamed/part_000): look the
device up (a miss only logs a warning), run `tty_action` on the node found
and clear its dirty flag. -/
def tty_reload_one (env : TtyEnv) (rl : Nat) (d : String) :
    List TtyNode → List TtyNode × List ProcEvent
  | [] => ([], [])
  | n :: ns =>
    if n.data.name == d then
      let a := tty_action env rl n.data
      ({ data := a.1, dirty := 0 } :: ns, a.2)
    else
      let r := tty_reload_one env rl d ns
      (n :: r.1, r.2)

/-- The per-node effect of `tty_reload`'s final loop: run `tty_action` and
clear the dirty flag. -/
def tty_reload_step (env : TtyEnv) (rl : Nat) (n : TtyNode) : TtyNode :=
  { data := (tty_action env rl n.data).1, dirty := 0 }

/-- Shallow embedding of `tty_reload` (src/unnamed/part_000): with a
device argument, act on that node only; with NULL, sweep the dirty nodes
and then run `tty_action` on every remaining node, clearing dirty flags. -/
def tty_reload (env : TtyEnv) (rl : Nat) (dev : Option String)
    (l : List TtyNode) : List TtyNode × List ProcEvent :=
  match dev with
  | some d => tty_reload_one env rl d l
  | none =>
    ((tty_sweep l).1.map (tty_reload_step env rl),
     (tty_sweep l).2
       ++ ((tty_sweep l).1.map (fun n => (tty_action env rl n.data).2)).flatten)

/-- The zeroed node `calloc` hands to `tty_register` on a lookup miss. -/
def ttyZero : FinitTty :=
  { name := "", baud := none, term := none, noclear := false,
    nowait := false, runlevels := 0, cmd := none, pid := 0 }

/-- The field assignments `tty_register` performs on a node (freshly
calloc'ed or found by `tty_find`): every parsed attribute is overwritten,
the external command only when one was parsed, and the node's `pid` is
never touched. -/
def tty_update_data (old new : FinitTty) : FinitTty :=
  { name := new.name
    baud := new.baud
    term := new.term
    noclear := new.noclear
    nowait := new.nowait
    runlevels := new.runlevels
    cmd := (if new.cmd.isSome then new.cmd else old.cmd)
    pid := old.pid }

/-- Registry-manipulation core of `tty_register` (src/unnamed/part_000),
after the config line has been tokenized and the device canonicalized
(strtok/access/canonicalize are environment I/O; `d` carries the parsed
attributes under the canonical device name, and `hasFile && confChanged`
models `file && conf_changed(file)`).  A `tty_find` hit updates the
existing node in place — no insertion; only a miss inserts a fresh node at
the list head. -/
def tty_register_entry (l : List TtyNode) (d : FinitTty)
    (hasFile confChanged : Bool) : List TtyNode :=
  match tty_find d.name l with
  | some _ =>
    updateFirst (fun n => n.data.name == d.name)
      (fun n =>
        { data := tty_update_data n.data d
          dirty := (if hasFile && confChanged then 1 else 0) }) l
  | none =>
    { data := tty_update_data ttyZero d
      dirty := (if hasFile && confChanged then 1 else 0) } :: l

/-- Shallow embedding of `tty_unregister` (src/unnamed/part_000): the node
at the given position is unlinked (`LIST_REMOVE`) and freed. -/
def tty_unregister (l : List TtyNode) (i : Nat) : List TtyNode :=
  l.eraseIdx i

/-- C8.  Stopping a TTY with a live process sends exactly one signal —
SIGKILL, with no preceding SIGTERM and no grace timer — then reaps the
process and clears the recorded pid; stopping a TTY whose pid is already 0
sends no signal at all. -/
theorem tty_stop_sigkill (t : FinitTty) :
    (t.pid ≠ 0 →
      tty_stop t
        = ({ t with pid := 0 }, [.signal t.pid SIGKILL, .reap t.pid]) ∧
      ProcEvent.signal t.pid SIGTERM ∉ (tty_stop t).2) ∧
    (t.pid = 0 → tty_stop t = (t, [])) := by
  constructor
  · intro h
    constructor
    · simp [tty_stop, h]
    · simp [tty_stop, h, SIGKILL, SIGTERM]
  · intro h
    simp [tty_stop, h]

/-- Concrete check of C8: pid 99 receives exactly `[SIGKILL, reap]`, a
pid-0 record receives nothing. -/
theorem tty_stop_sigkill_witness :
    tty_stop { ttyZero with name := "/dev/tty1", pid := 99 }
      = ({ ttyZero with name := "/dev/tty1", pid := 0 },
         [.signal 99 SIGKILL, .reap 99]) ∧
    tty_stop { ttyZero with name := "/dev/tty2" }
      = ({ ttyZero with name := "/dev/tty2" }, []) := by
  constructor
  · exact ((tty_stop_sigkill { ttyZero with name := "/dev/tty1", pid := 99 }).1
      (by decide)).1
  · exact (tty_stop_sigkill { ttyZero with name := "/dev/tty2" }).2 (by decide)

theorem updateFirst_length (p : α → Bool) (f : α → α) (l : List α) :
    (updateFirst p f l).length = l.length := by
  induction l with
  | nil => rfl
  | cons a as ih =>
    by_cases h : p a
    · simp [updateFirst, h]
    · simp [updateFirst, h, ih]

theorem map_updateFirst (p : α → Bool) (f : α → α) (g : α → β) (l : List α)
    (hpre : ∀ a, p a = true → g (f a) = g a) :
    (updateFirst p f l).map g = l.map g := by
  induction l with
  | nil => rfl
  | cons a as ih =>
    by_cases h : p a
    · simp [updateFirst, h, hpre a h]
    · simp [updateFirst, h, ih]

theorem tty_register_len_of_hit (l : List TtyNode) (d : FinitTty)
    (hf cc : Bool) (h : (tty_find d.name l).isSome = true) :
    tty_num (tty_register_entry l d hf cc) = tty_num l := by
  unfold tty_register_entry
  cases hq : tty_find d.name l with
  | none => rw [hq] at h; simp at h
  | some q => simp [tty_num, updateFirst_length]

theorem tty_find_register_self (l : List TtyNode) (d : FinitTty)
    (hf cc : Bool) :
    (tty_find d.name (tty_register_entry l d hf cc)).isSome = true := by
  unfold tty_register_entry
  cases hq : tty_find d.name l with
  | none =>
    simp [tty_find, List.find?_cons, tty_update_data]
  | some q =>
    unfold tty_find at hq ⊢
    rw [find?_updateFirst _ _ l q hq (by simp [tty_update_data])]
    rfl

/-- C10.  The TTY registry keeps at most one node per canonical device
name: registration updates a found node in place (the name multiset is
unchanged, so uniqueness is preserved and `tty_num` does not grow), only a
lookup miss inserts — a fresh name, keeping uniqueness — so registering
the same device twice leaves `tty_num` unchanged; `tty_unregister` removes
exactly the given node (length drops by one, uniqueness is preserved). -/
theorem tty_registry_unique :
    (∀ (l : List TtyNode) (d : FinitTty) (hf cc : Bool),
      (l.map (fun n => n.data.name)).Nodup →
      ((tty_register_entry l d hf cc).map (fun n => n.data.name)).Nodup) ∧
    (∀ (l : List TtyNode) (d : FinitTty) (hf cc : Bool),
      (tty_find d.name l).isSome = true →
      tty_num (tty_register_entry l d hf cc) = tty_num l) ∧
    (∀ (l : List TtyNode) (d : FinitTty) (hf cc hf2 cc2 : Bool),
      tty_num (tty_register_entry (tty_register_entry l d hf cc) d hf2 cc2)
        = tty_num (tty_register_entry l d hf cc)) ∧
    (∀ (l : List TtyNode) (i : Nat), i < l.length →
      tty_num (tty_unregister l i) + 1 = tty_num l) ∧
    (∀ (l : List TtyNode) (i : Nat),
      (l.map (fun n => n.data.name)).Nodup →
      ((tty_unregister l i).map (fun n => n.data.name)).Nodup) := by
  refine ⟨?_, tty_register_len_of_hit, ?_, ?_, ?_⟩
  · intro l d hf cc hnd
    unfold tty_register_entry
    cases hq : tty_find d.name l with
    | none =>
      have hnotin : d.name ∉ l.map (fun n => n.data.name) := by
        intro hmem
        obtain ⟨n, hn, hname⟩ := List.mem_map.mp hmem
        have := List.find?_eq_none.mp hq n hn
        simp [hname] at this
      simp [tty_update_data, List.nodup_cons, hnotin, hnd]
    | some q =>
      rw [map_updateFirst _ _ _ l ?_]
      · exact hnd
      · intro n hp
        have : n.data.name = d.name := by simpa using hp
        simp [tty_update_data, this]
  · intro l d hf cc hf2 cc2
    exact tty_register_len_of_hit _ d hf2 cc2 (tty_find_register_self l d hf cc)
  · intro l i h
    unfold tty_unregister tty_num
    rw [List.length_eraseIdx l i]
    simp [h]
    omega
  · intro l i hnd
    exact hnd.sublist ((List.eraseIdx_sublist l i).map _)

/-- Concrete check of C10: registering `/dev/tty1` twice yields one node;
unregistering it empties the registry. -/
theorem tty_registry_unique_witness :
    tty_num (tty_register_entry
      (tty_register_entry [] { ttyZero with name := "/dev/tty1" } true false)
      { ttyZero with name := "/dev/tty1" } true false) = 1 ∧
    tty_num (tty_unregister
      (tty_register_entry [] { ttyZero with name := "/dev/tty1" } true false)
      0) + 1 = 1 := by
  constructor
  · rw [tty_registry_unique.2.2.1 [] { ttyZero with name := "/dev/tty1" }
      true false true false]
    rfl
  · exact tty_registry_unique.2.2.2.1
      (tty_register_entry [] { ttyZero with name := "/dev/tty1" } true false)
      0 (by decide)

theorem tty_sweep_clean (l : List TtyNode) (h : ∀ n ∈ l, n.dirty = 0) :
    tty_sweep l = (l, []) := by
  induction l with
  | nil => rfl
  | cons n ns ih =>
    have hn : n.dirty = 0 := h n (List.mem_cons_self _ _)
    have ih' := ih (fun m hm => h m (List.mem_cons_of_mem _ hm))
    simp [tty_sweep, hn, ih']

theorem tty_start_active (env : TtyEnv) (t : FinitTty) (h : t.pid ≠ 0) :
    tty_start env t = t := by
  simp [tty_start, h]

theorem tty_start_runlevels (env : TtyEnv) (t : FinitTty) :
    (tty_start env t).runlevels = t.runlevels := by
  unfold tty_start
  split
  · rfl
  · split
    · rfl
    · split <;> rfl

theorem tty_stop_runlevels (t : FinitTty) :
    (tty_stop t).1.runlevels = t.runlevels := by
  unfold tty_stop
  split <;> rfl

theorem tty_stop_pid0 (t : FinitTty) : (tty_stop t).1.pid = 0 := by
  unfold tty_stop
  split
  next h => simpa using h
  next h => rfl

theorem tty_action_runlevels (env : TtyEnv) (rl : Nat) (t : FinitTty) :
    (tty_action env rl t).1.runlevels = t.runlevels := by
  unfold tty_action
  split
  · exact tty_stop_runlevels t
  · exact tty_start_runlevels env t

theorem tty_action_enabled_active (env : TtyEnv) (rl : Nat) (t : FinitTty)
    (he : tty_enabled rl t = true) (hp : t.pid ≠ 0) :
    tty_action env rl t = (t, []) := by
  simp [tty_action, he, tty_start_active env t hp]

theorem tty_action_events_nil (env : TtyEnv) (rl : Nat) (t : FinitTty)
    (h : tty_enabled rl t = true ∨ t.pid = 0) :
    (tty_action env rl t).2 = [] := by
  rcases h with he | hp
  · simp [tty_action, he]
  · by_cases he : tty_enabled rl t
    · simp [tty_action, he]
    · simp [tty_action, he, tty_stop, hp]

theorem tty_action_pid_zero_of_disabled (env : TtyEnv) (rl : Nat)
    (t : FinitTty) (he : tty_enabled rl t = false) :
    (tty_action env rl t).1.pid = 0 := by
  simp [tty_action, he, tty_stop_pid0]

theorem flatten_map_nil (f : α → List β) (l : List α)
    (h : ∀ a ∈ l, f a = []) : (l.map f).flatten = [] := by
  induction l with
  | nil => rfl
  | cons a as ih =>
    simp [h a (List.mem_cons_self _ _),
      ih (fun m hm => h m (List.mem_cons_of_mem _ hm))]

/-- The reload-equilibrium state of a node: clean (dirty 0), and alive
only if allowed at the current runlevel. -/
def ttyGood (rl : Nat) (n : TtyNode) : Prop :=
  n.dirty = 0 ∧ (n.data.pid ≠ 0 → tty_enabled rl n.data = true)

theorem tty_reload_clean (env : TtyEnv) (rl : Nat) (l : List TtyNode)
    (h : ∀ n ∈ l, ttyGood rl n) :
    tty_reload env rl none l = (l.map (tty_reload_step env rl), []) := by
  have hs := tty_sweep_clean l (fun n hn => (h n hn).1)
  have hev : ∀ n ∈ l, (tty_action env rl n.data).2 = [] := by
    intro n hn
    apply tty_action_events_nil
    by_cases hp : n.data.pid = 0
    · exact Or.inr hp
    · exact Or.inl ((h n hn).2 hp)
  unfold tty_reload
  rw [hs]
  simp [flatten_map_nil _ l hev]

theorem tty_reload_step_keep (env : TtyEnv) (rl : Nat) (n : TtyNode)
    (hg : ttyGood rl n) (hp : n.data.pid ≠ 0) :
    tty_reload_step env rl n = { data := n.data, dirty := 0 } := by
  unfold tty_reload_step
  rw [tty_action_enabled_active env rl n.data (hg.2 hp) hp]

theorem ttyGood_step (env : TtyEnv) (rl : Nat) (n : TtyNode) :
    ttyGood rl (tty_reload_step env rl n) := by
  constructor
  · rfl
  · intro hp
    by_cases he : tty_enabled rl n.data
    · show ((tty_action env rl n.data).1).runlevels.testBit rl = true
      rw [tty_action_runlevels]
      exact he
    · have h0 := tty_action_pid_zero_of_disabled env rl n.data
        (by simpa using he)
      exact absurd h0 hp

/-- C9.  An unchanged configuration does not bounce a running TTY:
(1) a record re-registered from an unchanged file gets dirty 0;
(2) `tty_sweep` does not stop clean records;
(3) `tty_start` on a record with a nonzero pid returns it unchanged;
(4) a full `tty_reload` over clean, runlevel-consistent records produces
no signals and maps each node in place, leaving every running node's data
(in particular its pid) identical; and (5) a second identical reload again
changes nothing for those nodes. -/
theorem tty_reload_no_bounce :
    (∀ (l : List TtyNode) (d : FinitTty) (hf : Bool),
      ∃ n ∈ tty_register_entry l d hf false,
        n.data.name = d.name ∧ n.dirty = 0) ∧
    (∀ l : List TtyNode, (∀ n ∈ l, n.dirty = 0) → tty_sweep l = (l, [])) ∧
    (∀ (env : TtyEnv) (t : FinitTty), t.pid ≠ 0 → tty_start env t = t) ∧
    (∀ (env : TtyEnv) (rl : Nat) (l : List TtyNode),
      (∀ n ∈ l, ttyGood rl n) →
      tty_reload env rl none l = (l.map (tty_reload_step env rl), []) ∧
      (∀ n ∈ l, n.data.pid ≠ 0 →
        tty_reload_step env rl n = { data := n.data, dirty := 0 })) ∧
    (∀ (env : TtyEnv) (rl : Nat) (l : List TtyNode),
      (∀ n ∈ l, ttyGood rl n) →
      (tty_reload env rl none (tty_reload env rl none l).1).1
        = l.map (fun n => tty_reload_step env rl (tty_reload_step env rl n)) ∧
      (∀ n ∈ l, n.data.pid ≠ 0 →
        tty_reload_step env rl (tty_reload_step env rl n)
          = { data := n.data, dirty := 0 })) := by
  refine ⟨?_, tty_sweep_clean, tty_start_active, ?_, ?_⟩
  · intro l d hf
    unfold tty_register_entry
    cases hq : tty_find d.name l with
    | none =>
      refine ⟨_, List.mem_cons_self _ _, ?_, ?_⟩
      · simp [tty_update_data]
      · simp
    | some q =>
      unfold tty_find at hq
      have hmem := List.mem_of_find?_eq_some
        (find?_updateFirst _
          (fun n =>
            { data := tty_update_data n.data d
              dirty := (if hf && false then 1 else 0) }) l q hq
          (by simp [tty_update_data]))
      refine ⟨_, hmem, ?_, ?_⟩
      · simp [tty_update_data]
      · simp
  · intro env rl l h
    refine ⟨tty_reload_clean env rl l h, ?_⟩
    intro n hn hp
    exact tty_reload_step_keep env rl n (h n hn) hp
  · intro env rl l h
    have hgood : ∀ n ∈ l.map (tty_reload_step env rl), ttyGood rl n := by
      intro n hn
      obtain ⟨m, hm, rfl⟩ := List.mem_map.mp hn
      exact ttyGood_step env rl m
    have h1 := tty_reload_clean env rl l h
    have h2 := tty_reload_clean env rl _ hgood
    constructor
    · rw [h1]
      simp only [h2, List.map_map]
      rfl
    · intro n hn hp
      rw [tty_reload_step_keep env rl n (h n hn) hp]
      exact tty_reload_step_keep env rl { data := n.data, dirty := 0 }
        ⟨rfl, fun _ => (h n hn).2 hp⟩ hp

/-- A permissive TTY environment for concrete checks: canonicalization is
the identity, every device is a valid TTY, spawned gettys get pid 7. -/
def env0 : TtyEnv :=
  { canon := fun s => some s, ttyOk := fun _ => true, spawn := fun _ _ => 7 }

/-- A clean, running TTY node allowed at runlevel 2. -/
def n1 : TtyNode :=
  { data := { ttyZero with name := "/dev/tty1", runlevels := 4, pid := 5 }
    dirty := 0 }

/-- Concrete check of C9: a reload of the clean running node `n1` at
runlevel 2 emits no signal and leaves the registry — pid included —
exactly as it was. -/
theorem tty_reload_no_bounce_witness :
    (tty_reload env0 2 none [n1]).1 = [n1] ∧
    (tty_reload env0 2 none [n1]).2 = [] := by
  have hgood : ∀ n ∈ [n1], ttyGood 2 n := by
    intro n hn
    rw [List.mem_singleton] at hn
    subst hn
    exact ⟨rfl, fun _ => by decide⟩
  obtain ⟨h1, h2⟩ := tty_reload_no_bounce.2.2.2.1 env0 2 [n1] hgood
  constructor
  · rw [h1]
    rw [List.map_singleton, h2 n1 (List.mem_singleton_self n1) (by decide)]
    rfl
  · rw [h1]

end Finit
